import Mathlib

/-!
Verification development for the scene-description ingestion pipeline of
`src/scene.cpp` (a CUDA path tracer's scene loader).  The C++ code is
shallowly embedded: the constructor's file-extension dispatch, the material
table builder, the geometry assembler (with its external collaborators, the
transform builder and the glTF mesh importer, taken as parameters), the lazy
asset accessors, and the camera parameter derivation.  Machine floating
point is idealised as exact arithmetic (rationals for geometry, reals for
the transcendental camera math).
-/

namespace PathTracer

/-! ## Scene constructor: file-extension dispatch (`Scene::Scene`)

The constructor computes `filename.substr(filename.find_last_of('.'))` and
compares the result with ".json"; on a match it calls `loadFromJSON`,
otherwise it prints and calls `exit(-1)`.  `std::string::find_last_of`
returns `npos` (`size_t` max, `2^64 - 1`) when the character does not occur,
and `std::string::substr(pos)` throws `std::out_of_range` when
`pos > size()`. -/

/-- Index of the last occurrence of `c` in the character list, counting from
offset `i`; `none` models `std::string::npos`. -/
def findLastOfAux (c : Char) : List Char → Nat → Option Nat
  | [], _ => none
  | x :: rest, i =>
    match findLastOfAux c rest (i + 1) with
    | some j => some j
    | none => if x = c then some i else none

/-- Embedding of `filename.find_last_of(c)`: the index of the last
occurrence, or `none` for `npos`. -/
def findLastOf (s : String) (c : Char) : Option Nat :=
  findLastOfAux c s.data 0

/-- The value of `std::string::npos` for a 64-bit `size_t`. -/
def NPOS : Nat := 2 ^ 64 - 1

/-- `find_last_of` as the C++ caller sees it: the index, with `npos`
represented by its numeric value. -/
def findLastOfN (s : String) (c : Char) : Nat :=
  match findLastOf s c with
  | some i => i
  | none => NPOS

/-- Embedding of `std::string::substr(pos)`: the suffix starting at `pos`,
or an `std::out_of_range` throw when `pos > size()`. -/
def substrFromPos (s : String) (pos : Nat) : Except Unit String :=
  if pos > s.data.length then .error () else .ok ⟨s.data.drop pos⟩

/-- Observable outcome of running `Scene::Scene(filename)`. -/
inductive CtorResult where
  /-- The `ext == ".json"` branch was taken: `loadFromJSON(filename)` runs. -/
  | loaded (filename : String)
  /-- The else branch was taken: `exit(-1)`. -/
  | fatalExit
  /-- `substr` threw `std::out_of_range` (uncaught), so neither branch ran. -/
  | thrownOutOfRange
  deriving DecidableEq

/-- Embedding of `Scene::Scene` (src/scene.cpp lines 10-25). -/
def sceneCtor (filename : String) : CtorResult :=
  match substrFromPos filename (findLastOfN filename '.') with
  | .error _ => .thrownOutOfRange
  | .ok ext => if ext = ".json" then .loaded filename else .fatalExit

/-! Basic facts about `findLastOfAux`. -/

theorem findLastOfAux_bounds (c : Char) :
    ∀ (l : List Char) (i j : Nat), findLastOfAux c l i = some j →
      i ≤ j ∧ j < i + l.length := by
  intro l
  induction l with
  | nil => intro i j h; simp [findLastOfAux] at h
  | cons x rest ih =>
    intro i j h
    simp only [findLastOfAux] at h
    cases hrec : findLastOfAux c rest (i + 1) with
    | some k =>
      rw [hrec] at h
      obtain ⟨h1, h2⟩ := ih (i + 1) k hrec
      simp only [Option.some.injEq] at h
      subst h
      constructor
      · omega
      · simpa using by omega
    | none =>
      rw [hrec] at h
      by_cases hx : x = c
      · simp [hx] at h
        subst h
        simp
      · simp [hx] at h

theorem findLastOfAux_of_not_mem (c : Char) :
    ∀ (l : List Char) (i : Nat), c ∉ l → findLastOfAux c l i = none := by
  intro l
  induction l with
  | nil => intro i _; rfl
  | cons x rest ih =>
    intro i hmem
    have hx : x ≠ c := fun h => hmem (h ▸ List.mem_cons_self x rest)
    have hrest : c ∉ rest := fun h => hmem (List.mem_cons_of_mem x h)
    simp [findLastOfAux, ih (i + 1) hrest, hx]

theorem findLastOfAux_append_ext (c : Char) (ext : List Char)
    (hlast : ∀ j, findLastOfAux c ext j = some j) :
    ∀ (l : List Char) (i : Nat),
      findLastOfAux c (l ++ ext) i = some (i + l.length) := by
  intro l
  induction l with
  | nil => intro i; simpa using hlast i
  | cons x rest ih =>
    intro i
    simp only [List.cons_append, findLastOfAux, List.append_eq, ih (i + 1),
      List.length_cons, Option.some.injEq]
    omega

theorem findLastOfAux_json (j : Nat) :
    findLastOfAux '.' (".json" : String).data j = some j := by
  simp [findLastOfAux, String.data]

theorem string_data_append (s t : String) : (s ++ t).data = s.data ++ t.data := by
  cases s; cases t; rfl

theorem findLastOf_append_json (t : String) :
    findLastOf (t ++ ".json") '.' = some t.data.length := by
  unfold findLastOf
  rw [string_data_append]
  simpa using findLastOfAux_append_ext '.' (".json" : String).data
    findLastOfAux_json t.data 0

/-- Claim C9: when the constructor filename has a last `'.'` at index `i`,
the suffix from `i` decides the outcome: a suffix other than `".json"`
hits the `exit(-1)` branch without loading, while any `".json"`-suffixed
filename takes the `loadFromJSON` branch. -/
theorem sceneCtor_extension_contract (s : String) :
    (∀ i : Nat, findLastOf s '.' = some i →
      (⟨s.data.drop i⟩ : String) ≠ ".json" → sceneCtor s = .fatalExit) ∧
    (∀ t : String, s = t ++ ".json" → sceneCtor s = .loaded s) := by
  constructor
  · intro i hfind hne
    have hb := findLastOfAux_bounds '.' s.data 0 i hfind
    unfold sceneCtor findLastOfN substrFromPos
    rw [hfind]
    simp only
    have hle : ¬ i > s.data.length := by omega
    rw [if_neg hle]
    simp only
    rw [if_neg hne]
  · intro t hs
    subst hs
    have hfind := findLastOf_append_json t
    have hdata := string_data_append t ".json"
    unfold sceneCtor findLastOfN substrFromPos
    rw [hfind]
    simp only
    have hlen : ¬ t.data.length > (t ++ ".json").data.length := by
      rw [hdata, List.length_append]
      omega
    rw [if_neg hlen]
    simp only
    rw [if_pos]
    rw [hdata, List.drop_left]

/-- Witness for C9: concrete filenames on each side of the contract. -/
theorem sceneCtor_extension_contract_witness :
    sceneCtor "scene.txt" = .fatalExit ∧ sceneCtor "a.json" = .loaded "a.json" :=
  ⟨(sceneCtor_extension_contract "scene.txt").1 5 (by decide) (by decide),
   (sceneCtor_extension_contract "a.json").2 "a" rfl⟩

/-- Claim C10: a filename containing no `'.'` makes `find_last_of` return
`npos`, and `substr(npos)` throws `std::out_of_range`, so the constructor
ends in the thrown-exception outcome — it reaches neither the load path nor
the `exit(-1)` branch.  The length bound is the `size_t` invariant
`size() < npos` that every `std::string` satisfies. -/
theorem sceneCtor_no_dot (s : String) (hlen : s.data.length < NPOS)
    (hnd : '.' ∉ s.data) : sceneCtor s = .thrownOutOfRange := by
  have hfind : findLastOf s '.' = none :=
    findLastOfAux_of_not_mem '.' s.data 0 hnd
  unfold sceneCtor findLastOfN substrFromPos
  rw [hfind]
  simp only
  rw [if_pos (by omega)]

/-- Witness for C10: a dot-free filename hits the thrown outcome. -/
theorem sceneCtor_no_dot_witness : sceneCtor "noext" = .thrownOutOfRange :=
  sceneCtor_no_dot "noext" (by decide) (by decide)

/-! ## Geometry-side scalar types

`glm::vec3` / `glm::vec4` / `glm::mat4` values reaching the geometry
pipeline are idealised as exact rationals. -/

/-- A `glm::vec3` of the geometry pipeline. -/
structure Vec3Q where
  x : ℚ
  y : ℚ
  z : ℚ
  deriving DecidableEq

/-- A `glm::vec4` (homogeneous coordinates). -/
structure Vec4Q where
  x : ℚ
  y : ℚ
  z : ℚ
  w : ℚ
  deriving DecidableEq

/-- A `glm::mat4`, stored by rows; `mat * vec` is the usual row-by-vector
product, so the storage convention is irrelevant to the theorems. -/
structure Mat4Q where
  r0 : Vec4Q
  r1 : Vec4Q
  r2 : Vec4Q
  r3 : Vec4Q
  deriving DecidableEq

/-- Dot product of two homogeneous vectors. -/
def dot4 (a b : Vec4Q) : ℚ := a.x * b.x + a.y * b.y + a.z * b.z + a.w * b.w

/-- Matrix-vector product `m * v` on homogeneous coordinates. -/
def mulVec4 (m : Mat4Q) (v : Vec4Q) : Vec4Q :=
  ⟨dot4 m.r0 v, dot4 m.r1 v, dot4 m.r2 v, dot4 m.r3 v⟩

/-- Embedding of `glm::vec3(m * glm::vec4(v, 1.0f))`: apply a 4×4 transform
to a point and drop the fourth component. -/
def applyPoint (m : Mat4Q) (v : Vec3Q) : Vec3Q :=
  let h := mulVec4 m ⟨v.x, v.y, v.z, 1⟩
  ⟨h.x, h.y, h.z⟩

/-! ## Material table builder (`Scene::loadFromJSON`, lines 97-165)

The eight material type tags are constants from `scene.h`, which is not part
of the visible sources; the spec names the eight recognized variants and
gives `"light"` as LIGHT's tag, so the tags are modelled as eight distinct
strings. -/

/-- Modelled from the spec: the LIGHT type tag constant from `scene.h`. -/
def LIGHT : String := "light"

/-- Modelled from the spec: the DIFFUSE_REFLECTIVE type tag constant. -/
def DIFFUSE_REFL : String := "diffuse_refl"

/-- Modelled from the spec: the SPECULAR_REFLECTIVE type tag constant. -/
def SPEC_REFL : String := "spec_refl"

/-- Modelled from the spec: the SPECULAR_TRANSMISSIVE type tag constant. -/
def SPEC_TRANS : String := "spec_trans"

/-- Modelled from the spec: the SPECULAR_GLASS type tag constant. -/
def SPEC_GLASS : String := "spec_glass"

/-- Modelled from the spec: the MICROFACET_REFLECTIVE type tag constant. -/
def MICROFACET_REFL : String := "microfacet_refl"

/-- Modelled from the spec: the DIAMOND type tag constant. -/
def DIAMOND : String := "diamond"

/-- Modelled from the spec: the CERAMIC type tag constant. -/
def CERAMIC : String := "ceramic"

/-- The eight recognized material type tags, in the order the source's
if/else chain tests them. -/
def recognizedTags : List String :=
  [LIGHT, DIFFUSE_REFL, SPEC_REFL, SPEC_TRANS, SPEC_GLASS, MICROFACET_REFL,
    DIAMOND, CERAMIC]

/-- One entry of the `Materials` section of the scene file.  `RGB` is read
unconditionally by the source, so it is kept as a plain field; `EMITTANCE`
and `ROUGHNESS` are only conditionally present in scene files, so they are
`Option`s. -/
structure MaterialDef where
  rgb : Vec3Q
  mtype : String
  emittance : Option ℚ
  roughness : Option ℚ
  deriving DecidableEq

/-- The in-memory `Material` record (`scene.h` is absent from the sources;
the fields are the ones `loadFromJSON` writes).  `Material newMaterial{}`
value-initializes, so unwritten scalar fields are zero. -/
structure Material where
  color : Vec3Q
  type : String
  emittance : ℚ
  roughness : ℚ
  deriving DecidableEq

/-- Fatal outcomes of `loadFromJSON` (each is an `exit(EXIT_FAILURE)` or an
abort inside the JSON library in the source). -/
inductive LoadError where
  /-- Modelled from the spec: `json.hpp` is not among the visible sources;
  per the spec a missing required field is a fatal configuration error, so
  reading an absent field aborts the load. -/
  | missingField
  /-- The `"UNKNOWN MATERIAL TYPE ERROR"` branch, line 160. -/
  | unknownMaterialType
  /-- The `"Error loading gltf model!"` branch, line 180. -/
  | importFailure
  deriving DecidableEq

/-- Read a conditionally-present JSON field that the source accesses
unconditionally in the taken branch. -/
def getField : Option ℚ → Except LoadError ℚ
  | some v => .ok v
  | none => .error .missingField

/-- Embedding of one iteration of the material loop (lines 108-161): the
if/else chain on `p["TYPE"]`. -/
def loadMaterial (p : MaterialDef) : Except LoadError Material :=
  let base : Material := { color := p.rgb, type := "", emittance := 0, roughness := 0 }
  if p.mtype = LIGHT then do
    let e ← getField p.emittance
    pure { base with type := LIGHT, emittance := e }
  else if p.mtype = DIFFUSE_REFL then
    pure { base with type := DIFFUSE_REFL }
  else if p.mtype = SPEC_REFL then do
    let r ← getField p.roughness
    pure { base with type := SPEC_REFL, roughness := r }
  else if p.mtype = SPEC_TRANS then do
    let r ← getField p.roughness
    pure { base with type := SPEC_TRANS, roughness := r }
  else if p.mtype = SPEC_GLASS then do
    let r ← getField p.roughness
    pure { base with type := SPEC_GLASS, roughness := r }
  else if p.mtype = MICROFACET_REFL then do
    let r ← getField p.roughness
    pure { base with type := MICROFACET_REFL, roughness := r }
  else if p.mtype = DIAMOND then do
    let r ← getField p.roughness
    pure { base with type := DIAMOND, roughness := r }
  else if p.mtype = CERAMIC then do
    let r ← getField p.roughness
    pure { base with type := CERAMIC, roughness := r }
  else
    .error .unknownMaterialType

/-- The `std::unordered_map<std::string, uint32_t>` `MatNameToID`, as an
association list whose head is the most recent insertion. -/
def MatMap : Type := List (String × Nat)

/-- Embedding of `unordered_map::find`-style lookup: the most recent
binding of `s`, if any. -/
def mapFind : List (String × Nat) → String → Option Nat
  | [], _ => none
  | (k, v) :: rest, s => if k = s then some v else mapFind rest s

/-- Embedding of `MatNameToID[s]` as an rvalue: `operator[]` returns the
mapped value when the key is present and otherwise default-inserts the key
with a value-initialized `uint32_t`, i.e. `0`, and returns that. -/
def mapGetOrInsertZero (m : List (String × Nat)) (s : String) :
    Nat × List (String × Nat) :=
  match mapFind m s with
  | some v => (v, m)
  | none => (0, (s, 0) :: m)

/-- Embedding of `MatNameToID[name] = idx` (line 162): insert or overwrite;
the new binding shadows any older one. -/
def mapAssign (m : List (String × Nat)) (s : String) (v : Nat) :
    List (String × Nat) :=
  (s, v) :: m

/-- The material loop (lines 103-165): walk the `Materials` entries in
iteration order carrying `idx`, the name map, and the materials vector
(`materials.resize` + `materials[idx] = newMaterial` builds it in index
order, which appends here). -/
def loadMaterialsAux :
    List (String × MaterialDef) → Nat → List (String × Nat) → List Material →
    Except LoadError (List (String × Nat) × List Material)
  | [], _, m, mats => .ok (m, mats)
  | (name, p) :: rest, idx, m, mats => do
    let newMaterial ← loadMaterial p
    loadMaterialsAux rest (idx + 1) (mapAssign m name idx) (mats ++ [newMaterial])

/-- Embedding of the whole material table build.  The `Materials` section is
a JSON object; `json.hpp` is not among the visible sources, so per the spec
("produces a material list in the same order as input") its iteration order
is modelled as the entry list's order. -/
def loadMaterials (defs : List (String × MaterialDef)) :
    Except LoadError (List (String × Nat) × List Material) :=
  loadMaterialsAux defs 0 [] []

/-! ## Geometry assembler (`Scene::loadFromJSON`, lines 166-245) -/

/-- A `tinygltf::Image`: an opaque pass-through asset of the mesh importer. -/
structure Image where
  id : Nat
  deriving DecidableEq

/-- A `BVHNode`: an opaque pass-through asset of the mesh importer. -/
structure BVHNode where
  id : Nat
  deriving DecidableEq

/-- A `MeshTriangle`: three vertex positions.  Its other attribute fields
(texture coordinates etc.) are opaque to this core and carried as one
untouched payload, copied whole by `MeshTriangle transformedTri = (*triangles)[i]`. -/
structure MeshTriangle where
  v0 : Vec3Q
  v1 : Vec3Q
  v2 : Vec3Q
  attrs : Nat
  deriving DecidableEq

/-- What one successful `glTFLoader::loadModel` call makes available through
the loader's getters: `getImages`, `getTriangles` (a possibly-null pointer),
and `getBVHTree`. -/
structure ImportResult where
  images : List Image
  triangles : Option (List MeshTriangle)
  bvh : List BVHNode
  deriving DecidableEq

/-- The external collaborators consumed by `loadFromJSON`:
`utilityCore::buildTransformationMatrix`, `glm::inverse`,
`glm::inverseTranspose`, and the glTF loader (`loadModel` plus getters),
none of which are among the visible sources. -/
structure Ctx where
  buildTransformationMatrix : Vec3Q → Vec3Q → Vec3Q → Mat4Q
  inverse : Mat4Q → Mat4Q
  inverseTranspose : Mat4Q → Mat4Q
  loadModel : String → Option ImportResult

/-- The `GeomType` tag of a primitive; `UNSET` stands for the indeterminate
value of a default-constructed `Geom`'s enum field before any assignment. -/
inductive GeomType where
  | TRI
  | CUBE
  | SPHERE
  | UNSET
  deriving DecidableEq

/-- A primitive record (`Geom` of `scene.h`, absent from the sources; the
fields are the ones `loadFromJSON` writes). -/
structure Geom where
  type : GeomType
  materialid : Nat
  triangle_index : Nat
  translation : Vec3Q
  rotation : Vec3Q
  scale : Vec3Q
  transform : Mat4Q
  inverseTransform : Mat4Q
  invTranspose : Mat4Q
  deriving DecidableEq

/-- The all-zero vector, standing in for indeterminate vector fields. -/
def zeroV3 : Vec3Q := ⟨0, 0, 0⟩

/-- The all-zero matrix, standing in for indeterminate matrix fields. -/
def zeroM4 : Mat4Q := ⟨⟨0, 0, 0, 0⟩, ⟨0, 0, 0, 0⟩, ⟨0, 0, 0, 0⟩, ⟨0, 0, 0, 0⟩⟩

/-- A freshly declared `Geom newGeom;` — fields not yet assigned.  (In C++
these are indeterminate; the theorems never depend on these stand-ins.) -/
def defaultGeom : Geom :=
  { type := .UNSET, materialid := 0, triangle_index := 0,
    translation := zeroV3, rotation := zeroV3, scale := zeroV3,
    transform := zeroM4, inverseTransform := zeroM4, invTranspose := zeroM4 }

/-- One entry of the `Objects` section of the scene file. -/
structure ObjectDef where
  otype : String
  material : String
  filepath : String
  trans : Vec3Q
  rotat : Vec3Q
  scale : Vec3Q
  deriving DecidableEq

/-- Embedding of the triangle bake (lines 206-213): apply the object's
transform to the three vertex positions of a copied triangle, leaving the
other attribute fields as copied. -/
def bakeTri (m : Mat4Q) (tri : MeshTriangle) : MeshTriangle :=
  { tri with v0 := applyPoint m tri.v0, v1 := applyPoint m tri.v1,
             v2 := applyPoint m tri.v2 }

/-- The scene state mutated by `loadFromJSON` and read by the accessors
(the `Scene` members that the visible code touches).  `triangles` models
the `std::vector<MeshTriangle>*` member, `none` being a null pointer. -/
structure SceneData where
  jsonLoadedNonCuda : Bool
  geoms : List Geom
  materials : List Material
  images : List Image
  triangles : Option (List MeshTriangle)
  bvhNode : List BVHNode
  deriving DecidableEq

/-- Modelled from the spec: `scene.h` (absent from the sources) declares the
`Scene` members; per the spec the accessors' precondition is that the load
has completed, so the load flag starts out false and the asset fields empty. -/
def initialScene : SceneData :=
  { jsonLoadedNonCuda := false, geoms := [], materials := [], images := [],
    triangles := none, bvhNode := [] }

/-- The per-triangle loop body's `Geom` (lines 190-204): type `TRI`,
`triangle_index = i`, material resolved through `MatNameToID[...]`, the
transform built from the entry's TRS; `inverseTransform`/`invTranspose`
are **not** computed in this branch. -/
def mkTriGeom (ctx : Ctx) (o : ObjectDef) (mid : Nat) (i : Nat) : Geom :=
  { defaultGeom with
      type := .TRI, triangle_index := i, materialid := mid,
      translation := o.trans, rotation := o.rotat, scale := o.scale,
      transform := ctx.buildTransformationMatrix o.trans o.rotat o.scale }

/-- The per-triangle loop of a mesh entry (lines 189-218), rendered as
structural recursion over the buffer: iteration `i` resolves the material
name through `MatNameToID[p["MATERIAL"]]` (which may default-insert),
builds the same transform, appends one `TRI` geom, and overwrites buffer
slot `i` with the baked copy of the original triangle read from that slot. -/
def meshLoopAux (ctx : Ctx) (o : ObjectDef) :
    Nat → List (String × Nat) → List MeshTriangle →
    List (String × Nat) × List Geom × List MeshTriangle
  | _, mm, [] => (mm, [], [])
  | i, mm, tri :: rest =>
    let (mid, mm') := mapGetOrInsertZero mm o.material
    let t := ctx.buildTransformationMatrix o.trans o.rotat o.scale
    let g := mkTriGeom ctx o mid i
    let (mmRest, gs, buf) := meshLoopAux ctx o (i + 1) mm' rest
    (mmRest, g :: gs, bakeTri t tri :: buf)

/-- Embedding of one iteration of the object loop (lines 167-245).  A mesh
entry re-invokes the importer (`loadModel`), takes over its images and
triangle pointer, runs the per-triangle loop, and stores the BVH — the loop
and BVH store are skipped when the triangle pointer is null.  Any other
entry builds one primitive: `CUBE` for `"cube"`, `SPHERE` for `"sphere"`
(any other tag leaves the type field unassigned), with inverse and
inverse-transpose transforms computed. -/
def loadObject (ctx : Ctx) (o : ObjectDef) (mm : List (String × Nat))
    (st : SceneData) : Except LoadError (List (String × Nat) × SceneData) :=
  if o.otype = "mesh" then
    match ctx.loadModel o.filepath with
    | none => .error .importFailure
    | some res =>
      let st := { st with images := res.images, triangles := res.triangles }
      match res.triangles with
      | none => .ok (mm, st)
      | some tris =>
        let (mm', gs, buf) := meshLoopAux ctx o 0 mm tris
        .ok (mm', { st with geoms := st.geoms ++ gs, triangles := some buf,
                            bvhNode := res.bvh })
  else
    let (mid, mm') := mapGetOrInsertZero mm o.material
    let t := ctx.buildTransformationMatrix o.trans o.rotat o.scale
    let g : Geom :=
      { defaultGeom with
          type := if o.otype = "cube" then .CUBE
                  else if o.otype = "sphere" then .SPHERE
                  else defaultGeom.type,
          materialid := mid,
          translation := o.trans, rotation := o.rotat, scale := o.scale,
          transform := t, inverseTransform := ctx.inverse t,
          invTranspose := ctx.inverseTranspose t }
    .ok (mm', { st with geoms := st.geoms ++ [g] })

/-- The object loop (lines 166-245): fold `loadObject` over the `Objects`
entries in order. -/
def loadObjects (ctx : Ctx) :
    List ObjectDef → List (String × Nat) → SceneData →
    Except LoadError (List (String × Nat) × SceneData)
  | [], mm, st => .ok (mm, st)
  | o :: rest, mm, st => do
    let (mm', st') ← loadObject ctx o mm st
    loadObjects ctx rest mm' st'

/-- One parsed scene file (the `Materials` and `Objects` sections; the
`Camera` section feeds the separately embedded camera derivation). -/
structure SceneFile where
  materials : List (String × MaterialDef)
  objects : List ObjectDef
  deriving DecidableEq

/-- Embedding of `Scene::loadFromJSON` lines 91-245: set the loaded flag,
build the material table, then assemble the geometry.  (The camera
derivation of lines 247-278 is embedded as `deriveCamera` below; a fatal
error means the process exits with no scene.) -/
def loadFromJSON (ctx : Ctx) (file : SceneFile) : Except LoadError SceneData := do
  let st0 := { initialScene with jsonLoadedNonCuda := true }
  let (mm, mats) ← loadMaterials file.materials
  let st1 := { st0 with materials := mats }
  let (_, st2) ← loadObjects ctx file.objects mm st1
  .ok st2

/-! ## Lazy asset accessors (lines 26-89) -/

/-- The `exit(EXIT_FAILURE)` taken when an accessor runs before
`loadFromJSON` ("loadJSON not called before CUDA load mesh!"). -/
inductive AccessError where
  | loadBeforeQuery
  deriving DecidableEq

/-- The accessors' shared scan of the re-parsed file's `Objects` list:
return `asset` at the first `"mesh"`-typed entry, else `empty`. -/
def firstMeshScan {α : Type} (asset empty : α) : List ObjectDef → α
  | [] => empty
  | p :: rest => if p.otype = "mesh" then asset else firstMeshScan asset empty rest

/-- Embedding of `Scene::getBvhNode` (lines 26-46): gate on the load flag,
re-parse the scene file, scan for a mesh entry. -/
def getBvhNode (st : SceneData) (file : SceneFile) :
    Except AccessError (List BVHNode) :=
  if !st.jsonLoadedNonCuda then .error .loadBeforeQuery
  else .ok (firstMeshScan st.bvhNode [] file.objects)

/-- Embedding of `Scene::getImages` (lines 47-67). -/
def getImages (st : SceneData) (file : SceneFile) :
    Except AccessError (List Image) :=
  if !st.jsonLoadedNonCuda then .error .loadBeforeQuery
  else .ok (firstMeshScan st.images [] file.objects)

/-- Embedding of `Scene::getTriangleBuffer` (lines 69-89); the result is the
triangle-buffer pointer, `none` being `nullptr`. -/
def getTriangleBuffer (st : SceneData) (file : SceneFile) :
    Except AccessError (Option (List MeshTriangle)) :=
  if !st.jsonLoadedNonCuda then .error .loadBeforeQuery
  else .ok (firstMeshScan st.triangles none file.objects)

/-! ## Camera parameter derivation (lines 247-278)

This block uses `tan`, `atan` and `glm::normalize`, so it is idealised over
the reals. -/

/-- A `glm::vec3` of the camera block. -/
structure Vec3R where
  x : ℝ
  y : ℝ
  z : ℝ

/-- Componentwise vector difference, `a - b`. -/
noncomputable def sub3 (a b : Vec3R) : Vec3R := ⟨a.x - b.x, a.y - b.y, a.z - b.z⟩

/-- The cross product `glm::cross(a, b)`. -/
noncomputable def cross3 (a b : Vec3R) : Vec3R :=
  ⟨a.y * b.z - a.z * b.y, a.z * b.x - a.x * b.z, a.x * b.y - a.y * b.x⟩

/-- The Euclidean norm of a vector. -/
noncomputable def norm3 (v : Vec3R) : ℝ :=
  Real.sqrt (v.x ^ 2 + v.y ^ 2 + v.z ^ 2)

/-- `glm::normalize`: the vector scaled by the reciprocal of its norm. -/
noncomputable def normalize3 (v : Vec3R) : Vec3R :=
  ⟨v.x / norm3 v, v.y / norm3 v, v.z / norm3 v⟩

/-- The camera model (`Camera` of `scene.h`, fields as written by
`loadFromJSON`); the resolution is a pair of integers. -/
structure Camera where
  resolution : ℤ × ℤ
  fov : ℝ × ℝ
  position : Vec3R
  lookAt : Vec3R
  up : Vec3R
  view : Vec3R
  right : Vec3R
  pixelLength : ℝ × ℝ

/-- The `Camera` section of the scene file (the fields the derivation
reads; iterations, depth and file name do not enter the derivation). -/
structure CameraInput where
  res : ℤ × ℤ
  fovy : ℝ
  eye : Vec3R
  lookat : Vec3R
  up : Vec3R

/-- Embedding of the camera derivation (lines 250-273), as the source's
sequence of assignments on the camera object `c`:
resolution, position/lookAt/up, then `yscaled`/`xscaled`/`fovx`, `fov`,
then `right` (computed from the **current** `view` field), then
`pixelLength`, and only then `view`. -/
noncomputable def deriveCamera (c0 : Camera) (d : CameraInput) : Camera :=
  let c := { c0 with resolution := d.res }
  let fovy := d.fovy
  let c := { c with position := d.eye, lookAt := d.lookat, up := d.up }
  let yscaled := Real.tan (fovy * (Real.pi / 180))
  let xscaled := (yscaled * ((c.resolution.1 : ℝ))) / ((c.resolution.2 : ℝ))
  let fovx := (Real.arctan xscaled * 180) / Real.pi
  let c := { c with fov := (fovx, fovy) }
  let c := { c with right := normalize3 (cross3 c.view c.up) }
  let c := { c with pixelLength := (2 * xscaled / (c.resolution.1 : ℝ),
                                    2 * yscaled / (c.resolution.2 : ℝ)) }
  let c := { c with view := normalize3 (sub3 c.lookAt c.position) }
  c

/-- A camera object whose fields are all zero, standing in for the default
state the derivation starts from. -/
noncomputable def defaultCamera : Camera :=
  { resolution := (0, 0), fov := (0, 0), position := ⟨0, 0, 0⟩,
    lookAt := ⟨0, 0, 0⟩, up := ⟨0, 0, 0⟩, view := ⟨0, 0, 0⟩,
    right := ⟨0, 0, 0⟩, pixelLength := (0, 0) }

/-- Claim C2: the derived camera's `right` is `normalize(cross(view, up))`
computed with the `view` field's value from *before* the derivation assigns
`view` — i.e. the stale/default view `c0.view` — `pixelLength` is likewise
set from `xscaled`/`yscaled` alone, and only afterwards does `view` receive
`normalize(lookAt - position)`. -/
theorem deriveCamera_right_uses_stale_view (c0 : Camera) (d : CameraInput) :
    (deriveCamera c0 d).right = normalize3 (cross3 c0.view d.up) ∧
    (deriveCamera c0 d).pixelLength =
      (2 * ((Real.tan (d.fovy * (Real.pi / 180)) * ((d.res.1 : ℝ))) / ((d.res.2 : ℝ)))
          / ((d.res.1 : ℝ)),
       2 * Real.tan (d.fovy * (Real.pi / 180)) / ((d.res.2 : ℝ))) ∧
    (deriveCamera c0 d).view = normalize3 (sub3 d.lookat d.eye) :=
  ⟨rfl, rfl, rfl⟩

/-- The concrete camera input refuting C3: resolution (2,1), FOVY 45. -/
noncomputable def cexCamInput : CameraInput :=
  { res := (2, 1), fovy := 45, eye := ⟨0, 0, 0⟩, lookat := ⟨0, 0, 1⟩,
    up := ⟨0, 1, 0⟩ }

/-- Counterexample to claim C3 as stated: at resolution (w,h) = (2,1) and
FOVY 45, the derived `pixelLength.x / pixelLength.y` is `1`, not
`h / w = 1/2`. -/
theorem pixelLength_ratio_cex :
    ¬ ((deriveCamera defaultCamera cexCamInput).pixelLength.1 /
        (deriveCamera defaultCamera cexCamInput).pixelLength.2 = (1 : ℝ) / 2) := by
  have htan : Real.tan ((45 : ℝ) * (Real.pi / 180)) = 1 := by
    have h4 : (45 : ℝ) * (Real.pi / 180) = Real.pi / 4 := by ring
    rw [h4, Real.tan_pi_div_four]
  show ¬ (2 * ((Real.tan ((45 : ℝ) * (Real.pi / 180)) * (((2 : ℤ) : ℝ))) / (((1 : ℤ) : ℝ)))
      / (((2 : ℤ) : ℝ)) / (2 * Real.tan ((45 : ℝ) * (Real.pi / 180)) / (((1 : ℤ) : ℝ)))
      = (1 : ℝ) / 2)
  rw [htan]
  norm_num

/-- Claim C3 as amended: for every resolution with w > 0 and h > 0 and every
FOVY, the two components of the derived `pixelLength` are equal — by the
source's own formulas `pixelLength.x = 2·(yscaled·w/h)/w = 2·yscaled/h =
pixelLength.y`, so their ratio is `1`, not `h / w`. -/
theorem pixelLength_components_equal (c0 : Camera) (d : CameraInput)
    (hw : 0 < d.res.1) (hh : 0 < d.res.2) :
    (deriveCamera c0 d).pixelLength.1 = (deriveCamera c0 d).pixelLength.2 := by
  have hw' : ((d.res.1 : ℤ) : ℝ) ≠ 0 := Int.cast_ne_zero.mpr (by omega)
  have hh' : ((d.res.2 : ℤ) : ℝ) ≠ 0 := Int.cast_ne_zero.mpr (by omega)
  show 2 * ((Real.tan (d.fovy * (Real.pi / 180)) * ((d.res.1 : ℝ))) / ((d.res.2 : ℝ)))
      / ((d.res.1 : ℝ)) = 2 * Real.tan (d.fovy * (Real.pi / 180)) / ((d.res.2 : ℝ))
  field_simp
  ring

/-- Witness for the amended C3 at resolution (800,800), FOVY 45. -/
theorem pixelLength_components_equal_witness :
    (0 : ℤ) < 800 ∧
    (deriveCamera defaultCamera
        ⟨(800, 800), 45, ⟨0, 0, 0⟩, ⟨0, 0, 1⟩, ⟨0, 1, 0⟩⟩).pixelLength.1 =
      (deriveCamera defaultCamera
        ⟨(800, 800), 45, ⟨0, 0, 0⟩, ⟨0, 0, 1⟩, ⟨0, 1, 0⟩⟩).pixelLength.2 :=
  ⟨by decide,
   pixelLength_components_equal defaultCamera
     ⟨(800, 800), 45, ⟨0, 0, 0⟩, ⟨0, 0, 1⟩, ⟨0, 1, 0⟩⟩ (by decide) (by decide)⟩

/-! ## Theorems about the material table builder -/

theorem loadMaterialsAux_error (defs : List (String × MaterialDef)) :
    ∀ (idx : Nat) (mm0 : List (String × Nat)) (mats0 : List Material),
      (∃ d ∈ defs, ∃ err, loadMaterial d.2 = .error err) →
      ∃ err, loadMaterialsAux defs idx mm0 mats0 = .error err := by
  induction defs with
  | nil => intro idx mm0 mats0 h; obtain ⟨d, hd, _⟩ := h; simp at hd
  | cons hd tl ih =>
    intro idx mm0 mats0 h
    obtain ⟨name, p⟩ := hd
    cases hp : loadMaterial p with
    | error e =>
      exact ⟨e, by simp [loadMaterialsAux, hp, Bind.bind, Except.bind]⟩
    | ok m =>
      obtain ⟨d, hd, err, herr⟩ := h
      rcases List.mem_cons.mp hd with heq | hmem
      · subst heq; rw [hp] at herr; cases herr
      · obtain ⟨err', herr'⟩ := ih (idx + 1) (mapAssign mm0 name idx)
          (mats0 ++ [m]) ⟨d, hmem, err, herr⟩
        exact ⟨err', by simp [loadMaterialsAux, hp, herr', Bind.bind, Except.bind]⟩

/-- Claim C4: the material dispatch of lines 108-161.  An unrecognized type
tag hits the `exit(EXIT_FAILURE)` branch; a LIGHT entry without `EMITTANCE`,
and a roughness-carrying variant without `ROUGHNESS`, abort on the missing
field; a LIGHT entry with all required fields parses to a LIGHT material
carrying the given emittance; and any failing material definition makes the
whole load fail before any geometry is assembled. -/
theorem material_validation (p : MaterialDef) (ctx : Ctx) (file : SceneFile) :
    (p.mtype ∉ recognizedTags → loadMaterial p = .error .unknownMaterialType) ∧
    (p.mtype = LIGHT → p.emittance = none →
      loadMaterial p = .error .missingField) ∧
    (p.mtype ∈ [SPEC_REFL, SPEC_TRANS, SPEC_GLASS, MICROFACET_REFL, DIAMOND,
        CERAMIC] → p.roughness = none → loadMaterial p = .error .missingField) ∧
    (∀ e : ℚ, p.mtype = LIGHT → p.emittance = some e →
      loadMaterial p =
        .ok { color := p.rgb, type := LIGHT, emittance := e, roughness := 0 }) ∧
    ((∃ d ∈ file.materials, ∃ err, loadMaterial d.2 = .error err) →
      ∃ err, loadFromJSON ctx file = .error err) := by
  refine ⟨?_, ?_, ?_, ?_, ?_⟩
  · intro h
    simp only [recognizedTags, List.mem_cons, List.not_mem_nil, or_false,
      not_or] at h
    obtain ⟨h1, h2, h3, h4, h5, h6, h7, h8⟩ := h
    simp [loadMaterial, h1, h2, h3, h4, h5, h6, h7, h8]
  · intro hL hE
    simp [loadMaterial, hL, hE, getField]
  · intro hmem hR
    have hd : ∀ a b : String, a ∈ recognizedTags → b ∈ recognizedTags →
        a ≠ b → True := fun _ _ _ _ _ => trivial
    rcases List.mem_cons.mp hmem with h | hmem <;>
      [skip; rcases List.mem_cons.mp hmem with h | hmem] <;>
      [skip; skip; rcases List.mem_cons.mp hmem with h | hmem] <;>
      [skip; skip; skip; rcases List.mem_cons.mp hmem with h | hmem] <;>
      [skip; skip; skip; skip; rcases List.mem_cons.mp hmem with h | hmem] <;>
      [skip; skip; skip; skip; skip;
        rcases List.mem_cons.mp hmem with h | hmem] <;>
      first
        | (simp [loadMaterial, h, hR, getField, LIGHT, DIFFUSE_REFL, SPEC_REFL,
            SPEC_TRANS, SPEC_GLASS, MICROFACET_REFL, DIAMOND, CERAMIC])
        | simp at hmem
  · intro e hL hE
    simp [loadMaterial, hL, hE, getField]
  · intro h
    obtain ⟨err, herr⟩ := loadMaterialsAux_error file.materials 0 [] [] h
    exact ⟨err, by simp [loadFromJSON, loadMaterials, herr, Bind.bind, Except.bind]⟩

/-- Witness for C4: a well-formed light parses; a light without emittance
and an unknown tag abort; a bad material entry sinks the whole load. -/
theorem material_validation_witness :
    loadMaterial ⟨⟨1, 1, 1⟩, "light", some 5, none⟩ =
      .ok { color := ⟨1, 1, 1⟩, type := LIGHT, emittance := 5, roughness := 0 } ∧
    loadMaterial ⟨⟨1, 1, 1⟩, "light", none, none⟩ = .error .missingField ∧
    loadMaterial ⟨⟨1, 1, 1⟩, "chrome", none, none⟩ =
      .error .unknownMaterialType ∧
    (∃ err, loadFromJSON
        ⟨fun _ _ _ => zeroM4, id, id, fun _ => none⟩
        ⟨[("bad", ⟨⟨1, 1, 1⟩, "chrome", none, none⟩)], []⟩ = .error err) :=
  ⟨(material_validation ⟨⟨1, 1, 1⟩, "light", some 5, none⟩
      ⟨fun _ _ _ => zeroM4, id, id, fun _ => none⟩ ⟨[], []⟩).2.2.2.1 5 rfl rfl,
   (material_validation ⟨⟨1, 1, 1⟩, "light", none, none⟩
      ⟨fun _ _ _ => zeroM4, id, id, fun _ => none⟩ ⟨[], []⟩).2.1 rfl rfl,
   (material_validation ⟨⟨1, 1, 1⟩, "chrome", none, none⟩
      ⟨fun _ _ _ => zeroM4, id, id, fun _ => none⟩ ⟨[], []⟩).1 (by decide),
   (material_validation ⟨⟨1, 1, 1⟩, "chrome", none, none⟩
      ⟨fun _ _ _ => zeroM4, id, id, fun _ => none⟩
      ⟨[("bad", ⟨⟨1, 1, 1⟩, "chrome", none, none⟩)], []⟩).2.2.2.2
      ⟨("bad", ⟨⟨1, 1, 1⟩, "chrome", none, none⟩), by decide,
        .unknownMaterialType, rfl⟩⟩

/-- The name/index pairs the material loop inserts: entry `i` of `defs`
paired with index `idx + i`, in iteration order. -/
def enumNames : List (String × MaterialDef) → Nat → List (String × Nat)
  | [], _ => []
  | (n, _) :: rest, i => (n, i) :: enumNames rest (i + 1)

/-- Elementwise parse of the material definitions — the closed form the
loop is proved to refine. -/
def parseAll : List (String × MaterialDef) → Except LoadError (List Material)
  | [] => .ok []
  | (_, p) :: rest => do
    let m ← loadMaterial p
    let ms ← parseAll rest
    .ok (m :: ms)

theorem loadMaterialsAux_ok (defs : List (String × MaterialDef)) :
    ∀ (idx : Nat) (mm0 : List (String × Nat)) (mats0 : List Material)
      (mm : List (String × Nat)) (mats : List Material),
      loadMaterialsAux defs idx mm0 mats0 = .ok (mm, mats) →
      ∃ parsed, parseAll defs = .ok parsed ∧ mats = mats0 ++ parsed ∧
        mm = (enumNames defs idx).reverse ++ mm0 := by
  induction defs with
  | nil =>
    intro idx mm0 mats0 mm mats h
    simp only [loadMaterialsAux] at h
    cases h
    exact ⟨[], rfl, by simp, by simp [enumNames]⟩
  | cons hd tl ih =>
    intro idx mm0 mats0 mm mats h
    obtain ⟨name, p⟩ := hd
    simp only [loadMaterialsAux] at h
    cases hp : loadMaterial p with
    | error e => rw [hp] at h; simp [Bind.bind, Except.bind] at h
    | ok m =>
      rw [hp] at h
      simp only [Bind.bind, Except.bind] at h
      obtain ⟨parsed, hparse, hmats, hmm⟩ :=
        ih (idx + 1) (mapAssign mm0 name idx) (mats0 ++ [m]) mm mats h
      refine ⟨m :: parsed, ?_, ?_, ?_⟩
      · simp [parseAll, hp, hparse, Bind.bind, Except.bind]
      · simp [hmats]
      · simp [hmm, enumNames, mapAssign]

theorem parseAll_ok (defs : List (String × MaterialDef)) :
    ∀ (parsed : List Material), parseAll defs = .ok parsed →
      parsed.length = defs.length ∧
      ∀ i (hi : i < defs.length),
        parsed[i]? = (loadMaterial (defs.get ⟨i, hi⟩).2).toOption := by
  induction defs with
  | nil =>
    intro parsed h
    simp only [parseAll] at h
    cases h
    exact ⟨rfl, fun i hi => by simp at hi⟩
  | cons hd tl ih =>
    intro parsed h
    obtain ⟨name, p⟩ := hd
    simp only [parseAll] at h
    cases hp : loadMaterial p with
    | error e => rw [hp] at h; simp [Bind.bind, Except.bind] at h
    | ok m =>
      rw [hp] at h
      simp only [Bind.bind, Except.bind] at h
      cases hrest : parseAll tl with
      | error e => rw [hrest] at h; simp at h
      | ok ms =>
        rw [hrest] at h
        simp only [Except.ok.injEq] at h
        subst h
        obtain ⟨hlen, hidx⟩ := ih ms hrest
        refine ⟨by simp [hlen], ?_⟩
        intro i hi
        cases i with
        | zero => simp [hp, Except.toOption]
        | succ j =>
          have hj : j < tl.length := by simpa using hi
          simpa using hidx j hj

theorem enumNames_mem_of_lt (defs : List (String × MaterialDef)) :
    ∀ (idx i : Nat) (hi : i < defs.length),
      ((defs.get ⟨i, hi⟩).1, idx + i) ∈ enumNames defs idx := by
  induction defs with
  | nil => intro idx i hi; simp at hi
  | cons hd tl ih =>
    intro idx i hi
    obtain ⟨name, p⟩ := hd
    cases i with
    | zero => simp [enumNames]
    | succ j =>
      have hj : j < tl.length := by simpa using hi
      have := ih (idx + 1) j hj
      simp only [enumNames, List.mem_cons]
      right
      simpa [Nat.add_assoc, Nat.add_comm 1 j] using this

theorem enumNames_mem_elim (defs : List (String × MaterialDef)) :
    ∀ (idx : Nat) (s : String) (v : Nat), (s, v) ∈ enumNames defs idx →
      ∃ (i : Nat) (hi : i < defs.length),
        s = (defs.get ⟨i, hi⟩).1 ∧ v = idx + i := by
  induction defs with
  | nil => intro idx s v h; simp [enumNames] at h
  | cons hd tl ih =>
    intro idx s v h
    obtain ⟨name, p⟩ := hd
    simp only [enumNames, List.mem_cons] at h
    rcases h with h | h
    · simp only [Prod.mk.injEq] at h
      obtain ⟨rfl, rfl⟩ := h
      exact ⟨0, by simp, by simp, by omega⟩
    · obtain ⟨i, hi, hs, hv⟩ := ih (idx + 1) s v h
      exact ⟨i + 1, by simpa using hi, by simpa using hs, by omega⟩

theorem enumNames_keys (defs : List (String × MaterialDef)) :
    ∀ idx : Nat, (enumNames defs idx).map Prod.fst = defs.map Prod.fst := by
  induction defs with
  | nil => intro idx; rfl
  | cons hd tl ih =>
    intro idx
    obtain ⟨name, p⟩ := hd
    simp [enumNames, ih (idx + 1)]

theorem mapFind_of_mem_nodup (mm : List (String × Nat)) :
    ∀ (s : String) (v : Nat), ((mm.map Prod.fst).Nodup) → (s, v) ∈ mm →
      mapFind mm s = some v := by
  induction mm with
  | nil => intro s v _ h; simp at h
  | cons hd tl ih =>
    intro s v hnd h
    obtain ⟨k, w⟩ := hd
    simp only [List.map_cons, List.nodup_cons] at hnd
    rcases List.mem_cons.mp h with heq | hmem
    · obtain ⟨hs, hv⟩ := Prod.mk.injEq .. ▸ heq
      simp only [mapFind]
      rw [if_pos]
      · exact congrArg some (by injection heq with a b; exact b.symm ▸ rfl)
      · injection heq with a _; exact a.symm ▸ rfl
    · have hk : k ≠ s := by
        intro hks
        exact hnd.1 (hks ▸ (List.mem_map.mpr ⟨(s, v), hmem, rfl⟩))
      simp only [mapFind, if_neg hk]
      exact ih s v hnd.2 hmem

theorem mapFind_mem (mm : List (String × Nat)) :
    ∀ (s : String) (v : Nat), mapFind mm s = some v → (s, v) ∈ mm := by
  induction mm with
  | nil => intro s v h; simp [mapFind] at h
  | cons hd tl ih =>
    intro s v h
    obtain ⟨k, w⟩ := hd
    simp only [mapFind] at h
    by_cases hk : k = s
    · rw [if_pos hk] at h
      injection h with hv
      exact List.mem_cons.mpr (Or.inl (by rw [hk, hv]))
    · rw [if_neg hk] at h
      exact List.mem_cons.mpr (Or.inr (ih s v h))

/-- Claim C7: for a `Materials` section with unique names, the built list
has one entry per input definition in input order, and the name map sends
the `i`-th name to `i` and nothing else anywhere — a bijection between the
names and `[0, materialCount)` consistent with input order. -/
theorem loadMaterials_bijection (defs : List (String × MaterialDef))
    (mm : List (String × Nat)) (mats : List Material)
    (hnodup : (defs.map Prod.fst).Nodup)
    (h : loadMaterials defs = .ok (mm, mats)) :
    mats.length = defs.length ∧
    (∀ i (hi : i < defs.length),
      mats[i]? = (loadMaterial (defs.get ⟨i, hi⟩).2).toOption) ∧
    (∀ i (hi : i < defs.length), mapFind mm (defs.get ⟨i, hi⟩).1 = some i) ∧
    (∀ (s : String) (v : Nat), mapFind mm s = some v →
      ∃ (hv : v < defs.length), (defs.get ⟨v, hv⟩).1 = s) := by
  obtain ⟨parsed, hparse, hmats, hmm⟩ :=
    loadMaterialsAux_ok defs 0 [] [] mm mats h
  obtain ⟨hlen, hidx⟩ := parseAll_ok defs parsed hparse
  have hmats' : mats = parsed := by simpa using hmats
  subst hmats'
  have hmm' : mm = (enumNames defs 0).reverse := by simpa using hmm
  have hkeys : (mm.map Prod.fst).Nodup := by
    rw [hmm', List.map_reverse, List.nodup_reverse, enumNames_keys]
    exact hnodup
  refine ⟨hlen, hidx, ?_, ?_⟩
  · intro i hi
    apply mapFind_of_mem_nodup mm _ _ hkeys
    rw [hmm', List.mem_reverse]
    simpa using enumNames_mem_of_lt defs 0 i hi
  · intro s v hfind
    have hmem := mapFind_mem mm s v hfind
    rw [hmm', List.mem_reverse] at hmem
    obtain ⟨i, hi, hs, hv⟩ := enumNames_mem_elim defs 0 s v hmem
    have hvi : v = i := by omega
    subst hvi
    subst hs
    exact ⟨hi, rfl⟩

/-- Witness for C7: two uniquely named materials produce the two-entry
table and the two-point bijection. -/
theorem loadMaterials_bijection_witness :
    ∃ mm mats,
      loadMaterials [("emitter", ⟨⟨1, 1, 1⟩, "light", some 5, none⟩),
        ("white", ⟨⟨1, 1, 1⟩, "diffuse_refl", none, none⟩)] = .ok (mm, mats) ∧
      mats.length = 2 ∧ mapFind mm "emitter" = some 0 ∧
      mapFind mm "white" = some 1 := by
  refine ⟨[("white", 1), ("emitter", 0)],
    [{ color := ⟨1, 1, 1⟩, type := LIGHT, emittance := 5, roughness := 0 },
     { color := ⟨1, 1, 1⟩, type := DIFFUSE_REFL, emittance := 0, roughness := 0 }],
    rfl, ?_, ?_, ?_⟩
  · exact (loadMaterials_bijection
      [("emitter", ⟨⟨1, 1, 1⟩, "light", some 5, none⟩),
        ("white", ⟨⟨1, 1, 1⟩, "diffuse_refl", none, none⟩)]
      [("white", 1), ("emitter", 0)]
      [{ color := ⟨1, 1, 1⟩, type := LIGHT, emittance := 5, roughness := 0 },
       { color := ⟨1, 1, 1⟩, type := DIFFUSE_REFL, emittance := 0, roughness := 0 }]
      (by decide) rfl).1
  · exact (loadMaterials_bijection
      [("emitter", ⟨⟨1, 1, 1⟩, "light", some 5, none⟩),
        ("white", ⟨⟨1, 1, 1⟩, "diffuse_refl", none, none⟩)]
      [("white", 1), ("emitter", 0)]
      [{ color := ⟨1, 1, 1⟩, type := LIGHT, emittance := 5, roughness := 0 },
       { color := ⟨1, 1, 1⟩, type := DIFFUSE_REFL, emittance := 0, roughness := 0 }]
      (by decide) rfl).2.2.1 0 (by decide)
  · exact (loadMaterials_bijection
      [("emitter", ⟨⟨1, 1, 1⟩, "light", some 5, none⟩),
        ("white", ⟨⟨1, 1, 1⟩, "diffuse_refl", none, none⟩)]
      [("white", 1), ("emitter", 0)]
      [{ color := ⟨1, 1, 1⟩, type := LIGHT, emittance := 5, roughness := 0 },
       { color := ⟨1, 1, 1⟩, type := DIFFUSE_REFL, emittance := 0, roughness := 0 }]
      (by decide) rfl).2.2.1 1 (by decide)

/-! ## Theorems about the lazy asset accessors -/

theorem firstMeshScan_of_exists {α : Type} (asset empty : α) :
    ∀ objs : List ObjectDef, (∃ o ∈ objs, o.otype = "mesh") →
      firstMeshScan asset empty objs = asset := by
  intro objs
  induction objs with
  | nil => intro h; obtain ⟨o, ho, _⟩ := h; simp at ho
  | cons p rest ih =>
    intro h
    by_cases hp : p.otype = "mesh"
    · simp [firstMeshScan, hp]
    · obtain ⟨o, ho, hmesh⟩ := h
      rcases List.mem_cons.mp ho with heq | hmem
      · subst heq; exact absurd hmesh hp
      · simp [firstMeshScan, hp, ih ⟨o, hmem, hmesh⟩]

theorem firstMeshScan_of_forall {α : Type} (asset empty : α) :
    ∀ objs : List ObjectDef, (∀ o ∈ objs, o.otype ≠ "mesh") →
      firstMeshScan asset empty objs = empty := by
  intro objs
  induction objs with
  | nil => intro _; rfl
  | cons p rest ih =>
    intro h
    have hp : p.otype ≠ "mesh" := h p (List.mem_cons_self p rest)
    simp [firstMeshScan, hp, ih fun o ho => h o (List.mem_cons_of_mem p ho)]

/-- Claim C5: each accessor exits fatally when the load flag is unset; with
the flag set, each re-scans the given file's object list and hands back the
stored in-memory asset when some entry is `"mesh"`-typed, and an empty list
(null pointer for the triangle buffer) when none is. -/
theorem accessors_contract (st : SceneData) (file : SceneFile) :
    (st.jsonLoadedNonCuda = false →
      getBvhNode st file = .error .loadBeforeQuery ∧
      getImages st file = .error .loadBeforeQuery ∧
      getTriangleBuffer st file = .error .loadBeforeQuery) ∧
    (st.jsonLoadedNonCuda = true →
      ((∃ o ∈ file.objects, o.otype = "mesh") →
        getBvhNode st file = .ok st.bvhNode ∧
        getImages st file = .ok st.images ∧
        getTriangleBuffer st file = .ok st.triangles) ∧
      ((∀ o ∈ file.objects, o.otype ≠ "mesh") →
        getBvhNode st file = .ok [] ∧
        getImages st file = .ok [] ∧
        getTriangleBuffer st file = .ok none)) := by
  refine ⟨fun hoff => ?_, fun hon => ⟨fun hex => ?_, fun hnone => ?_⟩⟩
  · simp [getBvhNode, getImages, getTriangleBuffer, hoff]
  · simp [getBvhNode, getImages, getTriangleBuffer, hon,
      firstMeshScan_of_exists _ _ _ hex]
  · simp [getBvhNode, getImages, getTriangleBuffer, hon,
      firstMeshScan_of_forall _ _ _ hnone]

/-- A loaded scene state used by the C5 witness. -/
def loadedSceneW : SceneData :=
  { jsonLoadedNonCuda := true, geoms := [], materials := [],
    images := [⟨7⟩], triangles := some [⟨zeroV3, zeroV3, zeroV3, 3⟩],
    bvhNode := [⟨9⟩] }

/-- A mesh-containing scene file used by the C5 witness. -/
def meshFileW : SceneFile :=
  { materials := [],
    objects := [{ otype := "mesh", material := "m", filepath := "a.gltf",
                  trans := zeroV3, rotat := zeroV3, scale := zeroV3 }] }

/-- Witness for C5: an unloaded query exits; a loaded query on a
mesh-containing file returns the stored assets. -/
theorem accessors_contract_witness :
    (getBvhNode initialScene meshFileW = .error .loadBeforeQuery ∧
      getImages initialScene meshFileW = .error .loadBeforeQuery ∧
      getTriangleBuffer initialScene meshFileW = .error .loadBeforeQuery) ∧
    (getBvhNode loadedSceneW meshFileW = .ok loadedSceneW.bvhNode ∧
      getImages loadedSceneW meshFileW = .ok loadedSceneW.images ∧
      getTriangleBuffer loadedSceneW meshFileW = .ok loadedSceneW.triangles) :=
  ⟨(accessors_contract initialScene meshFileW).1 rfl,
   ((accessors_contract loadedSceneW meshFileW).2 rfl).1
     ⟨{ otype := "mesh", material := "m", filepath := "a.gltf",
        trans := zeroV3, rotat := zeroV3, scale := zeroV3 },
      by decide, rfl⟩⟩

/-! ## Theorems about material-name resolution (claim C1) -/

/-- The importer/matrix context used by concrete C1 inputs: no mesh is ever
imported, the transform builder returns the zero matrix. -/
def c1Ctx : Ctx :=
  { buildTransformationMatrix := fun _ _ _ => zeroM4, inverse := id,
    inverseTranspose := id, loadModel := fun _ => none }

/-- A scene file whose single cube references material name `"red"`, which
is absent from its `Materials` section. -/
def c1File : SceneFile :=
  { materials := [("white", ⟨⟨1, 1, 1⟩, "diffuse_refl", none, none⟩)],
    objects := [{ otype := "cube", material := "red", filepath := "",
                  trans := zeroV3, rotat := zeroV3, scale := ⟨1, 1, 1⟩ }] }

/-- Counterexample to claim C1 as stated: loading `c1File`, whose object
references the absent material name `"red"`, does **not** fail — it
succeeds, and the cube is silently assigned material index `0`
(`MatNameToID[...]` is `unordered_map::operator[]`, which default-inserts
`0` for a missing key). -/
theorem missing_material_ref_cex :
    (loadFromJSON c1Ctx c1File).toOption.map
      (fun st => st.geoms.map (fun g => g.materialid)) = some [0] := by
  rfl

/-- Claim C1 as amended: an object (cube/sphere) whose MATERIAL name is
absent from the name map does not make the load fail; `operator[]`
default-inserts the name with index `0`, and the appended primitive carries
material index `0`. -/
theorem missing_material_defaults_to_zero (ctx : Ctx) (o : ObjectDef)
    (mm : List (String × Nat)) (st : SceneData)
    (hm : o.otype ≠ "mesh") (habs : mapFind mm o.material = none) :
    ∃ mm' st', loadObject ctx o mm st = .ok (mm', st') ∧
      mm' = (o.material, 0) :: mm ∧
      (st'.geoms.getLast?).map (fun g => g.materialid) = some 0 ∧
      st'.geoms.length = st.geoms.length + 1 := by
  have hres : mapGetOrInsertZero mm o.material = (0, (o.material, 0) :: mm) := by
    simp [mapGetOrInsertZero, habs]
  have hload : loadObject ctx o mm st = .ok ((o.material, 0) :: mm,
      { st with geoms := st.geoms ++ [{ defaultGeom with
          type := if o.otype = "cube" then .CUBE
                  else if o.otype = "sphere" then .SPHERE
                  else defaultGeom.type,
          materialid := 0,
          translation := o.trans, rotation := o.rotat, scale := o.scale,
          transform := ctx.buildTransformationMatrix o.trans o.rotat o.scale,
          inverseTransform :=
            ctx.inverse (ctx.buildTransformationMatrix o.trans o.rotat o.scale),
          invTranspose :=
            ctx.inverseTranspose
              (ctx.buildTransformationMatrix o.trans o.rotat o.scale) }] }) := by
    simp only [loadObject, if_neg hm, hres]
  exact ⟨_, _, hload, rfl, by simp [List.getLast?_concat], by simp⟩

/-- Witness for the amended C1 at the concrete cube of `c1File`. -/
theorem missing_material_defaults_to_zero_witness :
    ∃ mm' st',
      loadObject c1Ctx
        { otype := "cube", material := "red", filepath := "",
          trans := zeroV3, rotat := zeroV3, scale := ⟨1, 1, 1⟩ }
        [("white", 0)] initialScene = .ok (mm', st') ∧
      mm' = ("red", 0) :: [("white", 0)] ∧
      (st'.geoms.getLast?).map (fun g => g.materialid) = some 0 ∧
      st'.geoms.length = initialScene.geoms.length + 1 :=
  missing_material_defaults_to_zero c1Ctx
    { otype := "cube", material := "red", filepath := "",
      trans := zeroV3, rotat := zeroV3, scale := ⟨1, 1, 1⟩ }
    [("white", 0)] initialScene (by decide) (by decide)

/-! ## Theorems about the geometry assembler (claims C6 and C8) -/

theorem mapGetOrInsertZero_of_find (mm : List (String × Nat)) (s : String)
    (v : Nat) (h : mapFind mm s = some v) : mapGetOrInsertZero mm s = (v, mm) := by
  simp [mapGetOrInsertZero, h]

theorem meshLoopAux_closed (ctx : Ctx) (o : ObjectDef) (v : Nat) :
    ∀ (tris : List MeshTriangle) (i : Nat) (mm : List (String × Nat)),
      mapFind mm o.material = some v →
      meshLoopAux ctx o i mm tris =
        (mm,
         (List.range tris.length).map (fun j => mkTriGeom ctx o v (i + j)),
         tris.map (bakeTri (ctx.buildTransformationMatrix o.trans o.rotat o.scale))) := by
  intro tris
  induction tris with
  | nil => intro i mm h; simp [meshLoopAux]
  | cons tri rest ih =>
    intro i mm h
    have hrange : (List.range (rest.length + 1)).map
          (fun j => mkTriGeom ctx o v (i + j)) =
        mkTriGeom ctx o v i ::
          (List.range rest.length).map (fun j => mkTriGeom ctx o v (i + 1 + j)) := by
      rw [List.range_succ_eq_map, List.map_cons, List.map_map]
      congr 1
      apply List.map_congr_left
      intro j _
      simp only [Function.comp_apply, Nat.succ_eq_add_one]
      congr 1
      omega
    simp only [meshLoopAux, mapGetOrInsertZero_of_find mm o.material v h,
      ih (i + 1) mm h, List.length_cons, hrange, List.map_cons]

/-- The single primitive built for a `"cube"`/`"sphere"` entry (lines
223-243), with its material index as `MatNameToID[...]` yields it. -/
def solidGeomOf (ctx : Ctx) (mm : List (String × Nat)) (o : ObjectDef) : Geom :=
  { defaultGeom with
      type := if o.otype = "cube" then .CUBE
              else if o.otype = "sphere" then .SPHERE
              else defaultGeom.type,
      materialid := (mapGetOrInsertZero mm o.material).1,
      translation := o.trans, rotation := o.rotat, scale := o.scale,
      transform := ctx.buildTransformationMatrix o.trans o.rotat o.scale,
      inverseTransform :=
        ctx.inverse (ctx.buildTransformationMatrix o.trans o.rotat o.scale),
      invTranspose :=
        ctx.inverseTranspose (ctx.buildTransformationMatrix o.trans o.rotat o.scale) }

/-- Closed form of the primitives one object entry contributes to the
output list: one `TRI` geom per imported triangle for a mesh entry (none
when import yields no buffer), one solid geom otherwise. -/
def geomsOf (ctx : Ctx) (mm : List (String × Nat)) (o : ObjectDef) : List Geom :=
  if o.otype = "mesh" then
    match ctx.loadModel o.filepath with
    | some res =>
      match res.triangles with
      | some tris =>
        (List.range tris.length).map
          (fun i => mkTriGeom ctx o (mapGetOrInsertZero mm o.material).1 i)
      | none => []
    | none => []
  else [solidGeomOf ctx mm o]

theorem loadObject_geoms (ctx : Ctx) (o : ObjectDef)
    (mm : List (String × Nat)) (st : SceneData)
    (mm' : List (String × Nat)) (st' : SceneData)
    (hfind : (mapFind mm o.material).isSome)
    (h : loadObject ctx o mm st = .ok (mm', st')) :
    mm' = mm ∧ st'.geoms = st.geoms ++ geomsOf ctx mm o := by
  obtain ⟨v, hv⟩ := Option.isSome_iff_exists.mp hfind
  by_cases hm : o.otype = "mesh"
  · cases hload : ctx.loadModel o.filepath with
    | none => simp [loadObject, hm, hload] at h
    | some res =>
      cases htr : res.triangles with
      | none =>
        simp only [loadObject, if_pos hm, hload, htr, Except.ok.injEq,
          Prod.mk.injEq] at h
        obtain ⟨h1, h2⟩ := h
        refine ⟨h1.symm, ?_⟩
        rw [← h2]
        simp only [geomsOf, if_pos hm, hload, htr]
        simp
      | some tris =>
        simp only [loadObject, if_pos hm, hload, htr,
          meshLoopAux_closed ctx o v tris 0 mm hv, Except.ok.injEq,
          Prod.mk.injEq] at h
        obtain ⟨h1, h2⟩ := h
        refine ⟨h1.symm, ?_⟩
        rw [← h2]
        simp only [geomsOf, if_pos hm, hload, htr,
          mapGetOrInsertZero_of_find mm o.material v hv]
        simp [Nat.zero_add]
  · simp only [loadObject, if_neg hm,
      mapGetOrInsertZero_of_find mm o.material v hv, Except.ok.injEq,
      Prod.mk.injEq] at h
    obtain ⟨h1, h2⟩ := h
    refine ⟨h1.symm, ?_⟩
    rw [← h2]
    simp only [geomsOf, if_neg hm]
    simp [solidGeomOf, mapGetOrInsertZero_of_find mm o.material v hv]

theorem loadObjects_geoms_aux (ctx : Ctx) :
    ∀ (objs : List ObjectDef) (mm : List (String × Nat)) (st : SceneData)
      (mm' : List (String × Nat)) (st' : SceneData),
      (∀ o ∈ objs, (mapFind mm o.material).isSome) →
      loadObjects ctx objs mm st = .ok (mm', st') →
      mm' = mm ∧ st'.geoms = st.geoms ++ objs.flatMap (geomsOf ctx mm) := by
  intro objs
  induction objs with
  | nil =>
    intro mm st mm' st' _ h
    simp only [loadObjects, Except.ok.injEq, Prod.mk.injEq] at h
    obtain ⟨h1, h2⟩ := h
    subst h1; subst h2
    simp
  | cons o rest ih =>
    intro mm st mm' st' hfind h
    simp only [loadObjects, Bind.bind, Except.bind] at h
    cases hstep : loadObject ctx o mm st with
    | error e =>
      rw [hstep] at h
      replace h : (Except.error e :
          Except LoadError (List (String × Nat) × SceneData)) =
          .ok (mm', st') := h
      cases h
    | ok p =>
      obtain ⟨mm1, st1⟩ := p
      rw [hstep] at h
      replace h : loadObjects ctx rest mm1 st1 = .ok (mm', st') := h
      obtain ⟨hmm1, hg1⟩ := loadObject_geoms ctx o mm st mm1 st1
        (hfind o (List.mem_cons_self o rest)) hstep
      rw [hmm1] at h
      obtain ⟨hmm2, hg2⟩ := ih mm st1 mm' st'
        (fun o' ho' => hfind o' (List.mem_cons_of_mem o ho')) h
      refine ⟨hmm2, ?_⟩
      rw [hg2, hg1, List.flatMap_cons, List.append_assoc]

/-- Claim C6: with every referenced material name present in the map, a
successful object pass emits primitives in the same relative order as the
source object entries (`flatMap` of the per-entry contributions), and a
mesh entry contributes exactly one `TRI` primitive per imported triangle,
contiguously in buffer order, position `i` carrying `triangle_index = i`. -/
theorem loadObjects_order (ctx : Ctx) (objs : List ObjectDef)
    (mm : List (String × Nat)) (st : SceneData)
    (mm' : List (String × Nat)) (st' : SceneData)
    (hfind : ∀ o ∈ objs, (mapFind mm o.material).isSome)
    (h : loadObjects ctx objs mm st = .ok (mm', st')) :
    st'.geoms = st.geoms ++ objs.flatMap (geomsOf ctx mm) ∧
    (∀ o ∈ objs, o.otype = "mesh" →
      ∀ (res : ImportResult) (tris : List MeshTriangle),
        ctx.loadModel o.filepath = some res → res.triangles = some tris →
        (geomsOf ctx mm o).length = tris.length ∧
        ∀ i, i < tris.length →
          ((geomsOf ctx mm o)[i]?).map (fun g => (g.type, g.triangle_index)) =
            some (GeomType.TRI, i)) ∧
    (∀ o ∈ objs, o.otype ≠ "mesh" → geomsOf ctx mm o = [solidGeomOf ctx mm o]) := by
  obtain ⟨-, hg⟩ := loadObjects_geoms_aux ctx objs mm st mm' st' hfind h
  refine ⟨hg, ?_, ?_⟩
  · intro o _ hm res tris hload htr
    simp only [geomsOf, if_pos hm, hload, htr]
    refine ⟨by simp, ?_⟩
    intro i hi
    rw [List.getElem?_map, List.getElem?_range hi]
    rfl
  · intro o _ hm
    rw [geomsOf, if_neg hm]

/-- Claim C8: for a mesh entry with built transform `T`, a successful load
step leaves the shared triangle buffer holding exactly the one-time bake of
each original triangle — slot `i` holds `bakeTri T tris[i]` — and the bake
applies `T` to the three homogeneous vertex positions:
`bake(T, tri).v_k = (T * (v_k, 1)).xyz`. -/
theorem mesh_bake_transform (ctx : Ctx) (o : ObjectDef)
    (mm : List (String × Nat)) (st : SceneData) (res : ImportResult)
    (tris : List MeshTriangle) (v : Nat)
    (hm : o.otype = "mesh") (him : ctx.loadModel o.filepath = some res)
    (htr : res.triangles = some tris) (hfind : mapFind mm o.material = some v) :
    (∃ st', loadObject ctx o mm st = .ok (mm, st') ∧
      st'.triangles = some (tris.map
        (bakeTri (ctx.buildTransformationMatrix o.trans o.rotat o.scale)))) ∧
    (∀ (m : Mat4Q) (tri : MeshTriangle),
      (bakeTri m tri).v0 = applyPoint m tri.v0 ∧
      (bakeTri m tri).v1 = applyPoint m tri.v1 ∧
      (bakeTri m tri).v2 = applyPoint m tri.v2) := by
  refine ⟨?_, fun m tri => ⟨rfl, rfl, rfl⟩⟩
  have he : loadObject ctx o mm st = .ok (mm,
      { st with
        images := res.images,
        geoms := st.geoms ++
          (List.range tris.length).map (fun j => mkTriGeom ctx o v j),
        triangles := some (tris.map
          (bakeTri (ctx.buildTransformationMatrix o.trans o.rotat o.scale))),
        bvhNode := res.bvh }) := by
    simp only [loadObject, if_pos hm, him, htr,
      meshLoopAux_closed ctx o v tris 0 mm hfind, Nat.zero_add]
  exact ⟨_, he, rfl⟩

/-- The importer used by the C6/C8 witnesses: `"tri.gltf"` yields two
triangles, one image and one BVH node; the transform builder scales by the
SCALE vector's x component. -/
def meshCtxW : Ctx :=
  { buildTransformationMatrix := fun _ _ s =>
      ⟨⟨s.x, 0, 0, 0⟩, ⟨0, s.x, 0, 0⟩, ⟨0, 0, s.x, 0⟩, ⟨0, 0, 0, 1⟩⟩,
    inverse := id, inverseTranspose := id,
    loadModel := fun fp =>
      if fp = "tri.gltf" then
        some { images := [⟨1⟩],
               triangles := some
                 [⟨⟨1, 0, 0⟩, ⟨0, 1, 0⟩, ⟨0, 0, 1⟩, 11⟩,
                  ⟨⟨2, 0, 0⟩, ⟨0, 2, 0⟩, ⟨0, 0, 2⟩, 22⟩],
               bvh := [⟨5⟩] }
      else none }

/-- The object list used by the C6 witness: a cube, then a mesh, then a
sphere, all referencing material `"m"`. -/
def objsW : List ObjectDef :=
  [{ otype := "cube", material := "m", filepath := "",
     trans := zeroV3, rotat := zeroV3, scale := ⟨1, 1, 1⟩ },
   { otype := "mesh", material := "m", filepath := "tri.gltf",
     trans := zeroV3, rotat := zeroV3, scale := ⟨2, 2, 2⟩ },
   { otype := "sphere", material := "m", filepath := "",
     trans := zeroV3, rotat := zeroV3, scale := ⟨1, 1, 1⟩ }]

/-- Witness for C6 at `objsW`: the pass succeeds and the output is the
ordered per-entry concatenation, with the mesh's two `TRI` geoms indexed
`0` and `1`. -/
theorem loadObjects_order_witness :
    ∃ mm' st', loadObjects meshCtxW objsW [("m", 0)] initialScene = .ok (mm', st') ∧
      st'.geoms = initialScene.geoms ++ objsW.flatMap (geomsOf meshCtxW [("m", 0)]) ∧
      ((geomsOf meshCtxW [("m", 0)] (objsW.get ⟨1, by decide⟩))[0]?).map
        (fun g => (g.type, g.triangle_index)) = some (GeomType.TRI, 0) ∧
      ((geomsOf meshCtxW [("m", 0)] (objsW.get ⟨1, by decide⟩))[1]?).map
        (fun g => (g.type, g.triangle_index)) = some (GeomType.TRI, 1) := by
  have h : loadObjects meshCtxW objsW [("m", 0)] initialScene =
      .ok ((loadObjects meshCtxW objsW [("m", 0)] initialScene).toOption.getD
        ([], initialScene)) := by rfl
  obtain ⟨horder, hmesh, -⟩ := loadObjects_order meshCtxW objsW [("m", 0)]
    initialScene _ _ (by decide) h
  refine ⟨_, _, h, horder, ?_, ?_⟩
  · exact (hmesh (objsW.get ⟨1, by decide⟩) (by decide) rfl _ _ rfl rfl).2 0
      (by decide)
  · exact (hmesh (objsW.get ⟨1, by decide⟩) (by decide) rfl _ _ rfl rfl).2 1
      (by decide)

/-- Witness for C8: loading the mesh entry of `objsW` through `meshCtxW`
(uniform scale by 2) leaves the buffer holding the two baked triangles. -/
theorem mesh_bake_transform_witness :
    ∃ st', loadObject meshCtxW
        { otype := "mesh", material := "m", filepath := "tri.gltf",
          trans := zeroV3, rotat := zeroV3, scale := ⟨2, 2, 2⟩ }
        [("m", 0)] initialScene = .ok ([("m", 0)], st') ∧
      st'.triangles = some
        ([⟨⟨1, 0, 0⟩, ⟨0, 1, 0⟩, ⟨0, 0, 1⟩, 11⟩,
          ⟨⟨2, 0, 0⟩, ⟨0, 2, 0⟩, ⟨0, 0, 2⟩, 22⟩].map
          (bakeTri (meshCtxW.buildTransformationMatrix zeroV3 zeroV3 ⟨2, 2, 2⟩))) :=
  (mesh_bake_transform meshCtxW
    { otype := "mesh", material := "m", filepath := "tri.gltf",
      trans := zeroV3, rotat := zeroV3, scale := ⟨2, 2, 2⟩ }
    [("m", 0)] initialScene
    { images := [⟨1⟩],
      triangles := some
        [⟨⟨1, 0, 0⟩, ⟨0, 1, 0⟩, ⟨0, 0, 1⟩, 11⟩,
         ⟨⟨2, 0, 0⟩, ⟨0, 2, 0⟩, ⟨0, 0, 2⟩, 22⟩],
      bvh := [⟨5⟩] }
    [⟨⟨1, 0, 0⟩, ⟨0, 1, 0⟩, ⟨0, 0, 1⟩, 11⟩,
     ⟨⟨2, 0, 0⟩, ⟨0, 2, 0⟩, ⟨0, 0, 2⟩, 22⟩] 0 rfl rfl rfl rfl).1

end PathTracer
